import Mathlib

/-!
Verification of the GLOSS log scanner (gloss.py).

The program is Python 2.  Its core builds one composite regular expression
from string fragments (gloss.py lines 184-232), matches each log line
against it with re.match, zips the captured groups against a key list
(line 255), evaluates a where-clause with a boolean accumulator
(lines 256-267) and prints name=value projections (lines 268-272), all
inside a per-source try/except that turns any exception into a warning
(lines 273-276).  The process exits 1 iff a warning occurred (line 279).

The regular-expression dialect used by the source is embedded shallowly:
an AST `RE` transcribing the concrete pattern strings, and a backtracking
matcher `mat` in continuation-passing style that is faithful to Python's
re semantics for the constructs that occur (leftmost alternation, greedy
star/plus/option, capture groups, match anchored at the start only).
`matB` is a capture-free boolean version used for symbolic reasoning; the
two are linked by `mat_isSome_eq_matB`.
-/

/-- Strings are modelled as lists of characters. -/
abbrev Str := List Char

/-- Character classes occurring in the patterns of gloss.py:
[01], [0-9], [0-3], [0-5], [^ ], [^:], [^:\]], the dot (any char except
newline, Python re default), and a literal character. -/
inductive CClass where
  | d01 | d09 | d03 | d05 | notSp | notColon | notColonRb | dot
  | chC (c : Char)
deriving DecidableEq, Repr

/-- Membership test of a character class. -/
def CClass.test : CClass → Char → Bool
  | .d01, c => c == '0' || c == '1'
  | .d09, c => decide ('0' ≤ c) && decide (c ≤ '9')
  | .d03, c => decide ('0' ≤ c) && decide (c ≤ '3')
  | .d05, c => decide ('0' ≤ c) && decide (c ≤ '5')
  | .notSp, c => c != ' '
  | .notColon, c => c != ':'
  | .notColonRb, c => c != ':' && c != ']'
  | .dot, c => c != '\n'
  | .chC a, c => c == a

/-- Regular-expression AST covering exactly the constructs used in the
pattern strings assembled by gloss.py.  Group numbers are written
explicitly, following Python's numbering of capturing parentheses in the
composite pattern.  `opt` is the greedy `(?:...)?`, `star`/`plus` are the
greedy `*`/`+` (in the source they are only ever applied to a character
class), `fail` is the empty alternation. -/
inductive RE where
  | fail
  | eps
  | cls (c : CClass)
  | cat (a b : RE)
  | alt (a b : RE)
  | opt (a : RE)
  | star (c : CClass)
  | plus (c : CClass)
  | grp (n : Nat) (a : RE)
deriving DecidableEq, Repr

/-- Literal character as a regex. -/
def chr (c : Char) : RE := .cls (.chC c)

/-- Concatenation of a list of regexes. -/
def catList (rs : List RE) : RE := rs.foldr .cat .eps

/-- Literal string as a regex (concatenation of literal characters). -/
def lits (s : Str) : RE := catList (s.map chr)

/-- Alternation of a list of regexes, as Python renders `a|b|c`. -/
def altList : List RE → RE
  | [] => .fail
  | [r] => r
  | r :: rs => .alt r (altList rs)

/-- Captures: group number paired with the captured substring, most
recent first.  Python keeps the last substring matched by each group. -/
abbrev Caps := List (Nat × Str)

/-- Greedy Kleene star over a character class, continuation-passing:
consume as many class characters as possible, then give back one at a
time until the continuation succeeds (Python backtracking order). -/
def starGreedy (c : CClass) (k : Str → Caps → Option Caps) : Str → Caps → Option Caps
  | [], cp => k [] cp
  | a :: s, cp =>
    if c.test a then
      match starGreedy c k s cp with
      | some r => some r
      | none => k (a :: s) cp
    else k (a :: s) cp

/-- Backtracking matcher with captures, continuation-passing style.
`mat r s cp k` tries to match a prefix of `s` by `r`, extending captures
`cp`, and hands the remaining input to `k`; alternatives are tried left
to right and the first overall success wins, as in Python's re. -/
def mat : RE → Str → Caps → (Str → Caps → Option Caps) → Option Caps
  | .fail, _, _, _ => none
  | .eps, s, cp, k => k s cp
  | .cls c, [], _, _ => none
  | .cls c, a :: s, cp, k => if c.test a then k s cp else none
  | .cat r1 r2, s, cp, k => mat r1 s cp (fun s1 cp1 => mat r2 s1 cp1 k)
  | .alt r1 r2, s, cp, k =>
    match mat r1 s cp k with
    | some r => some r
    | none => mat r2 s cp k
  | .opt r, s, cp, k =>
    match mat r s cp k with
    | some res => some res
    | none => k s cp
  | .star c, s, cp, k => starGreedy c k s cp
  | .plus c, [], _, _ => none
  | .plus c, a :: s, cp, k => if c.test a then starGreedy c k s cp else none
  | .grp n r, s, cp, k =>
    mat r s cp (fun s1 cp1 => k s1 ((n, s.take (s.length - s1.length)) :: cp1))

/-- Python re.match: anchored at the start of the input only; the final
continuation accepts whatever input remains. -/
def reMatch (r : RE) (s : Str) : Option Caps := mat r s [] (fun _ cp => some cp)

/-- Boolean matcher without captures, used for symbolic proofs.  Success
agrees with `mat` (lemma `mat_isSome_eq_matB`) because no construct of
the embedded dialect inspects the captures. -/
def starB (c : CClass) (k : Str → Bool) : Str → Bool
  | [] => k []
  | a :: s => if c.test a then starB c k s || k (a :: s) else k (a :: s)

/-- Boolean matcher, continuation-passing style. -/
def matB : RE → Str → (Str → Bool) → Bool
  | .fail, _, _ => false
  | .eps, s, k => k s
  | .cls c, [], _ => false
  | .cls c, a :: s, k => c.test a && k s
  | .cat r1 r2, s, k => matB r1 s (fun s1 => matB r2 s1 k)
  | .alt r1 r2, s, k => matB r1 s k || matB r2 s k
  | .opt r, s, k => matB r s k || k s
  | .star c, s, k => starB c k s
  | .plus c, [], _ => false
  | .plus c, a :: s, k => c.test a && starB c k s
  | .grp _ r, s, k => matB r s k

/-- Acceptance by the matcher from the start of the input. -/
def reAccepts (r : RE) (s : Str) : Bool := (reMatch r s).isSome

/-!
The concrete fragments assembled by gloss.py (lines 184-232), with the
default command-line arguments (no --hostname, --pid, --regexp).  Group
numbers follow the order of capturing parentheses in the composite
pattern string: 1 timestamp, 2 date, 3 month, 4 day, 5 time, 6 host,
7 proc, 8 pid, 9 logentry.  The Python source iterates over sets when
joining the month and day alternatives; CPython 2 iterates a set of the
small integers 1..31 in ascending order, and the iteration order of the
month set only permutes disjoint fixed-length literal alternatives, which
cannot change acceptance, so the listing order of the source is used.
-/

/-- Month alternatives, gloss.py line 187. -/
def monthStrs : List Str :=
  (["Jan", "Feb", "Mar", "Apr", "May", "Jun",
    "Jul", "Aug", "Sep", "Oct", "Nov", "Dec"]).map String.data

/-- Day alternatives, gloss.py lines 192-194: str(d) for d in 1..31. -/
def dayStrs : List Str := (List.range 31).map (fun d => (toString (d + 1)).data)

/-- Fragment re_month = '(Jan|Feb|...|Dec)', gloss.py line 189. -/
def re_month : RE := .grp 3 (altList (monthStrs.map lits))

/-- Fragment re_day = '(1|2|...|31)', gloss.py line 194. -/
def re_day : RE := .grp 4 (altList (dayStrs.map lits))

/-- Fragment re_time = '([01][0-9]|2[0-3]:[0-5][0-9]:[0-5][0-9])',
gloss.py line 198, transcribed exactly: the alternation puts the two
leading-digit patterns on the left and the full 2x:xx:xx form on the
right, so only hours 20-23 are followed by minutes and seconds. -/
def re_time : RE :=
  .grp 5 (.alt (.cat (.cls .d01) (.cls .d09))
    (catList [chr '2', .cls .d03, chr ':', .cls .d05, .cls .d09,
              chr ':', .cls .d05, .cls .d09]))

/-- Fragment re_tstamp = '((' + re_month + ' +' + re_day + ') ' + re_time + ')',
gloss.py line 201. -/
def re_tstamp : RE :=
  .grp 1 (catList [.grp 2 (catList [re_month, .plus (.chC ' '), re_day]),
                   chr ' ', re_time])

/-- Fragment re_host = '([^ ]+)' (default, no --hostname), gloss.py line 204. -/
def re_host : RE := .grp 6 (.plus .notSp)

/-- Fragment re_proc = '([^:]*[^:\]])' (default, no --proc), gloss.py line 219. -/
def re_proc : RE := .grp 7 (.cat (.star .notColon) (.cls .notColonRb))

/-- Fragment re_pid = '(?:\[([0-9]+)\])?' (default, no --pid), gloss.py line 220. -/
def re_pid : RE := .opt (catList [chr '[', .grp 8 (.plus .d09), chr ']'])

/-- Piece .*sub.* of the free-text fragment for one required substring,
transcribed with the substring as a literal, which is faithful to the
compiled pattern whenever it contains no regex metacharacters. -/
def restPiece (sub : Str) : RE := catList [.star .dot, lits sub, .star .dot]

/-- Fragment re_rest, gloss.py line 224: '(.*)' without --regexp, and
'(.*' + '.*|.*'.join(args.regexp) + '.*)' with required substrings,
which is the single-group alternation (.*sub1.*|.*sub2.*|...). -/
def re_rest (rx : Option (List Str)) : RE :=
  .grp 9 (match rx with
    | none => .star .dot
    | some subs => altList (subs.map restPiece))

/-- Composite pattern re_logline = re_tstamp + ' ' + re_host + ' ' +
re_proc + re_pid + ': +' + re_rest + '\n', gloss.py line 227,
parameterized by the --regexp configuration that shapes re_rest. -/
def re_logline_of (rx : Option (List Str)) : RE :=
  catList [re_tstamp, chr ' ', re_host, chr ' ', re_proc, re_pid,
           chr ':', .plus (.chC ' '), re_rest rx, chr '\n']

/-- Composite pattern with the default fragments. -/
def re_logline : RE := re_logline_of none

/-- Key list ky_month = ['month'], gloss.py line 190. -/
def ky_month : List Str := ["month".data]

/-- Key list ky_day = ['day'], gloss.py line 195. -/
def ky_day : List Str := ["day".data]

/-- Key list ky_time = ['time'], gloss.py line 199. -/
def ky_time : List Str := ["time".data]

/-- Key list ky_tstamp = ['timestamp','date'] + ky_month + ky_day +
ky_time, gloss.py line 202. -/
def ky_tstamp : List Str :=
  ["timestamp".data, "date".data] ++ ky_month ++ ky_day ++ ky_time

/-- Key list ky_host = ['host'], gloss.py line 205. -/
def ky_host : List Str := ["host".data]

/-- Key list ky_proc = ['proc'], gloss.py line 221. -/
def ky_proc : List Str := ["proc".data]

/-- Key list ky_pid = ['pid'], gloss.py line 222. -/
def ky_pid : List Str := ["pid".data]

/-- Key list ky_rest = ['logentry'], gloss.py line 225. -/
def ky_rest : List Str := ["logentry".data]

/-- Key list ky_logline = ky_tstamp + ky_host + ky_proc + ky_pid +
ky_rest, gloss.py line 228. -/
def ky_logline : List Str :=
  ky_tstamp ++ ky_host ++ ky_proc ++ ky_pid ++ ky_rest

/-- Fragments of the composite pattern paired with their key lists, in
assembly order (gloss.py lines 227-228). -/
def defaultFragments : List (RE × List Str) :=
  [(re_tstamp, ky_tstamp), (re_host, ky_host), (re_proc, ky_proc),
   (re_pid, ky_pid), (re_rest none, ky_rest)]

/-- Match of one line against the compiled composite pattern, as in
seeline.match(lfl), gloss.py lines 232 and 249. -/
def seelineMatch (line : Str) : Option Caps := reMatch re_logline line

/-!
Variable binding and the scan loop, gloss.py lines 245-276.
-/

/-- Value of a numbered group in the final match, as Python's
match.group(n): the most recently recorded capture, or None when the
group did not participate. -/
def groupVal (cp : Caps) (n : Nat) : Option Str :=
  (cp.find? (fun p => p.1 == n)).map (fun p => p.2)

/-- Tuple of all groups of a pattern with groups numbered 1..n, as
Python's match.groups(): non-participating groups yield None. -/
def extractGroups (n : Nat) (cp : Caps) : List (Option Str) :=
  (List.range n).map (fun i => groupVal cp (i + 1))

/-- Count of capturing groups of a pattern. -/
def groupCount : RE → Nat
  | .fail | .eps | .cls _ | .star _ | .plus _ => 0
  | .cat a b | .alt a b => groupCount a + groupCount b
  | .opt a => groupCount a
  | .grp _ a => groupCount a + 1

/-- Lookup in a Python dict built from a key/value pair list: the last
binding of a key wins, absence gives none.  A present key bound to None
is some none (the absent marker), distinct from an absent key. -/
def dictGet (kvs : List (Str × Option Str)) (key : Str) : Option (Option Str) :=
  (kvs.reverse.find? (fun p => p.1 == key)).map (fun p => p.2)

/-- Binding of a matched line, gloss.py line 255:
linevars = dict(zip(ky_logline, logged.groups())). -/
def mkLinevars (keys : List Str) (nGroups : Nat) (cp : Caps) : List (Str × Option Str) :=
  keys.zip (extractGroups nGroups cp)

/-- Condition of the where-clause: an equality/inequality test
(var, value, same) or the OR marker (None, None, None), gloss.py
lines 160-176. -/
inductive Condition where
  | test (var : Str) (val : Str) (eq : Bool)
  | orMarker
deriving DecidableEq, Repr

/-- Python comparison linevars[var] == val where the left side may be
None: None == string is False in Python 2. -/
def optEq : Option Str → Str → Bool
  | none, _ => false
  | some s, val => s == val

/-- Where-clause evaluation, gloss.py lines 256-267: the accumulator
starts true; the OR marker breaks out (keeping the current true value)
when the accumulator is true and resets it to true otherwise; a test on
an unbound variable sets the accumulator false; a test whose comparison
result differs from its expectation sets the accumulator false. -/
def whereEval (acc : Bool) : List Condition → List (Str × Option Str) → Bool
  | [], _ => acc
  | .orMarker :: rest, env => if acc then acc else whereEval true rest env
  | .test var val eq :: rest, env =>
    match dictGet env var with
    | none => whereEval false rest env
    | some gv => if (optEq gv val) != eq then whereEval false rest env
                 else whereEval acc rest env

/-- Scanner configuration: the compiled pattern and key list (fixed
before the scan, gloss.py lines 227-235), verbosity, the parsed
where-clause and the output projection list. -/
structure Cfg where
  pattern : RE
  keys : List Str
  verbose : Bool
  conditions : List Condition
  var_names : List Str

/-- Default configuration: default fragments, no where-clause,
select-all projection (var_names = ky_logline, gloss.py line 235). -/
def defaultCfg : Cfg :=
  { pattern := re_logline, keys := ky_logline, verbose := false,
    conditions := [], var_names := ky_logline }

/-- Binding of a match under a configuration. -/
def cfgVars (cfg : Cfg) (cp : Caps) : List (Str × Option Str) :=
  mkLinevars cfg.keys (groupCount cfg.pattern) cp

/-- Projection loop, gloss.py lines 270-271: print var + '=' +
linevars[var] for each selected variable.  A missing key raises KeyError
and a key bound to None raises TypeError on the string concatenation;
both escape the loop, so the pair returned is the lines printed before
the failure together with an aborted flag. -/
def projectLoop (vars : List (Str × Option Str)) : List Str → (List Str × Bool)
  | [] => ([], false)
  | v :: vs =>
    match dictGet vars v with
    | some (some s) =>
      let r := projectLoop vars vs
      ((v ++ '=' :: s) :: r.1, r.2)
    | _ => ([], true)

/-- Per-line scan loop, gloss.py lines 248-272, returning the lines
printed to stdout and an aborted flag.  An unmatched line is skipped,
except that under verbose mode the two-argument call
sys.stderr.write('Unrecognised line format: ', lfl) raises TypeError in
Python 2 (file.write takes one argument), which escapes the loop before
warning = True on line 253 can run.  A selected line prints its
projection and then one blank line; a projection failure escapes with
the lines printed so far. -/
def processLines (cfg : Cfg) : List Str → (List Str × Bool)
  | [] => ([], false)
  | l :: ls =>
    match reMatch cfg.pattern l with
    | none =>
      if cfg.verbose then ([], true)
      else processLines cfg ls
    | some cp =>
      let vars := cfgVars cfg cp
      if whereEval true cfg.conditions vars then
        let pr := projectLoop vars cfg.var_names
        if pr.2 then (pr.1, true)
        else
          let rest := processLines cfg ls
          (pr.1 ++ [] :: rest.1, rest.2)
      else processLines cfg ls

/-- One source under the per-source try/except, gloss.py lines 245-276:
an unreadable source (none) or any exception escaping the line loop is
caught, stderr gets a skip message, and the warning flag is set; lines
already printed to stdout stay printed. -/
def runSource (cfg : Cfg) : Option (List Str) → (List Str × Bool)
  | none => ([], true)
  | some ls => processLines cfg ls

/-- Whole scan over the configured sources, gloss.py lines 245-276,
returning all stdout lines and the aggregate warning flag. -/
def runGloss (cfg : Cfg) : List (Option (List Str)) → (List Str × Bool)
  | [] => ([], false)
  | src :: srcs =>
    let r := runSource cfg src
    let rs := runGloss cfg srcs
    (r.1 ++ rs.1, r.2 || rs.2)

/-- Process completion status, gloss.py line 279:
sys.exit(1 if warning else 0). -/
def exitCode (cfg : Cfg) (srcs : List (Option (List Str))) : Nat :=
  if (runGloss cfg srcs).2 then 1 else 0

/-!
Concrete inputs used by the claims.
-/

/-- Input line of the end-to-end claim, gloss.py spec section 8. -/
def lineHour03 : Str := "Oct 12 03:14:15 mail1 postfix/smtp[1234]: message-id=XYZ\n".data

/-- Same line with an hour in 20..23, which the time fragment accepts. -/
def lineHour20 : Str := "Oct 12 20:14:15 mail1 postfix/smtp[1234]: message-id=XYZ\n".data

/-- Well-formed line with no bracketed pid. -/
def lineNoPid : Str := "Oct 12 20:14:15 mail1 cron: done\n".data

/-- Line that does not match the composite pattern at all. -/
def lineGarbage : Str := "garbage\n".data

/-- Well-formed line whose hour is below 20. -/
def lineHour00 : Str := "Jan 1 00:00:00 host proc: msg\n".data

/-- Line whose colon-free process token ends in a closing bracket. -/
def lineProcRb : Str := "Oct 12 20:14:15 mail1 smtp][123]: m\n".data

/-- Captures of lineHour20 under the composite pattern. -/
def capsHour20 : Caps :=
  [(9, "message-id=XYZ".data), (8, "1234".data), (7, "postfix/smtp".data),
   (6, "mail1".data), (1, "Oct 12 20:14:15".data), (5, "20:14:15".data),
   (2, "Oct 12".data), (4, "12".data), (3, "Oct".data)]

/-- Captures of lineNoPid under the composite pattern: group 8 (pid)
does not participate. -/
def capsNoPid : Caps :=
  [(9, "done".data), (7, "cron".data), (6, "mail1".data),
   (1, "Oct 12 20:14:15".data), (5, "20:14:15".data),
   (2, "Oct 12".data), (4, "12".data), (3, "Oct".data)]

/-- Stdout lines the scanner prints for lineHour20 with the default
select-all projection: one name=value line per key of ky_logline in
order, then one blank line. -/
def outHour20 : List Str :=
  (["timestamp=Oct 12 20:14:15", "date=Oct 12", "month=Oct", "day=12",
    "time=20:14:15", "host=mail1", "proc=postfix/smtp", "pid=1234",
    "logentry=message-id=XYZ", ""]).map String.data

/-- Verbose configuration (gloss.py -v). -/
def verboseCfg : Cfg := { defaultCfg with verbose := true }

/-- Configuration with an explicit projection list containing pid. -/
def cfgSelPid : Cfg :=
  { defaultCfg with var_names := ["month".data, "pid".data, "day".data] }

/-- Bracketed pid part of a well-formed line: [digits] when a pid is
present, nothing otherwise, followed by the rest of the line. -/
def pidPart (pid : Option Str) (rest : Str) : Str :=
  match pid with
  | none => rest
  | some ds => '[' :: (ds ++ (']' :: rest))

/-- Well-formed log line of the grammar
MONTH DAY HH:MM:SS HOST PROC[PID]: MESSAGE with a trailing newline and
an hour written 2 followed by one digit 0-3. -/
def mkLine (month day : Str) (h1 m1 m2 s1 s2 : Char)
    (host procStr : Str) (pid : Option Str) (msg : Str) : Str :=
  month ++ (' ' :: (day ++ (' ' :: '2' :: h1 :: ':' :: m1 :: m2 :: ':' ::
    s1 :: s2 :: (' ' :: (host ++ (' ' :: (procStr ++
      pidPart pid (':' :: ' ' :: (msg ++ ['\n'])))))))))

/-- Characters with a special meaning in Python regex syntax; literal
characters among them would have to be written with a backslash. -/
def regexSpecials : List Char :=
  ['\\', '[', ']', '(', ')', '|', '?', '*', '+', '.', '^', '$',
   Char.ofNat 123, Char.ofNat 125]

/-- Rendering of a literal character in pattern syntax. -/
def escChar (c : Char) : Str :=
  if c ∈ regexSpecials then ['\\', c] else [c]

/-- Rendering of a character class in pattern syntax, matching the
spellings used in gloss.py. -/
def printC : CClass → Str
  | .d01 => "[01]".data
  | .d09 => "[0-9]".data
  | .d03 => "[0-3]".data
  | .d05 => "[0-5]".data
  | .notSp => "[^ ]".data
  | .notColon => "[^:]".data
  | .notColonRb => "[^:\\]]".data
  | .dot => ['.']
  | .chC c => escChar c

/-- Rendering of the regex AST back to Python pattern syntax; on the
ASTs of this file it reproduces the strings gloss.py concatenates
(alternations are only ever framed by capturing parentheses, and the
only optional part is the non-capturing (?:...)? of the pid). -/
def printR : RE → Str
  | .fail => []
  | .eps => []
  | .cls c => printC c
  | .cat a b => printR a ++ printR b
  | .alt a b => printR a ++ ('|' :: printR b)
  | .opt a => "(?:".data ++ (printR a ++ ")?".data)
  | .star c => printC c ++ ['*']
  | .plus c => printC c ++ ['+']
  | .grp _ a => '(' :: (printR a ++ [')'])

/-- Python str.join: interleave a separator between list elements. -/
def joinSep (sep : Str) : List Str → Str
  | [] => []
  | [x] => x
  | x :: xs => x ++ (sep ++ joinSep sep xs)

/-- Pattern string gloss.py prints as REGEXP and compiles as seeline
under the default arguments (month alternatives in source listing
order, day alternatives in the ascending order CPython 2 iterates the
set of 1..31; alternation order cannot change acceptance for these
disjoint literal alternatives). -/
def srcPattern : String :=
  "(((Jan|Feb|Mar|Apr|May|Jun|Jul|Aug|Sep|Oct|Nov|Dec) +(1|2|3|4|5|6|7|8|9|10|11|12|13|14|15|16|17|18|19|20|21|22|23|24|25|26|27|28|29|30|31)) ([01][0-9]|2[0-3]:[0-5][0-9]:[0-5][0-9])) ([^ ]+) ([^:]*[^:\\]])(?:\\[([0-9]+)\\])?: +(.*)\n"

/-- Occurrence of a substring: the needle appears contiguously inside
the haystack. -/
def occursIn (needle hay : Str) : Prop :=
  ∃ u v, hay = u ++ (needle ++ v)

lemma starGreedy_isSome (c : CClass) (k : Str → Caps → Option Caps) (kb : Str → Bool)
    (hk : ∀ s cp, (k s cp).isSome = kb s) :
    ∀ s cp, (starGreedy c k s cp).isSome = starB c kb s := by
  intro s
  induction s with
  | nil => intro cp; simp [starGreedy, starB, hk]
  | cons a s ih =>
    intro cp
    simp only [starGreedy, starB]
    by_cases h : c.test a
    · simp only [h, if_true]
      cases hg : starGreedy c k s cp with
      | some r =>
        have := ih cp
        rw [hg] at this
        simp at this
        simp [← this]
      | none =>
        have := ih cp
        rw [hg] at this
        simp at this
        simp [← this, hk]
    · simp [h, hk]

lemma mat_isSome_eq_matB (r : RE) :
    ∀ (s : Str) (cp : Caps) (k : Str → Caps → Option Caps) (kb : Str → Bool),
    (∀ s1 cp1, (k s1 cp1).isSome = kb s1) →
    (mat r s cp k).isSome = matB r s kb := by
  induction r with
  | fail => intro s cp k kb hk; simp [mat, matB]
  | eps => intro s cp k kb hk; simp [mat, matB, hk]
  | cls c =>
    intro s cp k kb hk
    cases s with
    | nil => simp [mat, matB]
    | cons a s =>
      by_cases h : c.test a <;> simp [mat, matB, h, hk]
  | cat r1 r2 ih1 ih2 =>
    intro s cp k kb hk
    simp only [mat, matB]
    exact ih1 s cp _ _ (fun s1 cp1 => ih2 s1 cp1 k kb hk)
  | alt r1 r2 ih1 ih2 =>
    intro s cp k kb hk
    simp only [mat, matB]
    cases h1 : mat r1 s cp k with
    | some r =>
      have := ih1 s cp k kb hk
      rw [h1] at this
      simp at this
      simp [← this]
    | none =>
      have := ih1 s cp k kb hk
      rw [h1] at this
      simp at this
      simp [← this, ih2 s cp k kb hk]
  | opt r ih =>
    intro s cp k kb hk
    simp only [mat, matB]
    cases h1 : mat r s cp k with
    | some res =>
      have := ih s cp k kb hk
      rw [h1] at this
      simp at this
      simp [← this]
    | none =>
      have := ih s cp k kb hk
      rw [h1] at this
      simp at this
      simp [← this, hk]
  | star c =>
    intro s cp k kb hk
    simp only [mat, matB]
    exact starGreedy_isSome c k kb hk s cp
  | plus c =>
    intro s cp k kb hk
    cases s with
    | nil => simp [mat, matB]
    | cons a s =>
      by_cases h : c.test a <;>
        simp [mat, matB, h, starGreedy_isSome c k kb hk]
  | grp n r ih =>
    intro s cp k kb hk
    simp only [mat, matB]
    exact ih s cp _ kb (fun s1 cp1 => hk s1 _)

lemma reAccepts_eq_matB (r : RE) (s : Str) :
    reAccepts r s = matB r s (fun _ => true) := by
  unfold reAccepts reMatch
  exact mat_isSome_eq_matB r s [] _ _ (fun _ _ => rfl)

/-- Claim C1, counterexample: the line with time 03:14:15 does not match
the composite pattern at all (the time alternation
([01][0-9]|2[0-3]:[0-5][0-9]:[0-5][0-9]) only continues into :MM:SS
after an hour 20-23, so after matching the bare "03" the pattern needs a
space where the line has a colon), hence the scanner emits nothing for
it, not the claimed month=Oct .. logentry=... lines; moreover, even for
a matching line the default select-all projection emits timestamp= and
date= lines as well, so the claimed seven-line output list is wrong. -/
theorem claim_C1_cex :
    seelineMatch lineHour03 = none
    ∧ runGloss defaultCfg [some [lineHour03]] = ([], false)
    ∧ runGloss defaultCfg [some [lineHour20]] ≠
        ((["month=Oct", "day=12", "time=20:14:15", "host=mail1",
           "proc=postfix/smtp", "pid=1234", "logentry=message-id=XYZ",
           ""]).map String.data, false) := by
  refine ⟨rfl, rfl, ?_⟩
  decide

/-- Claim C1 as amended: the stated line is rejected by the composite
pattern, and on the otherwise identical line with time 20:14:15, with
default fragments, no where-clause and select-all projection, the
scanner matches and emits exactly timestamp=Oct 12 20:14:15,
date=Oct 12, month=Oct, day=12, time=20:14:15, host=mail1,
proc=postfix/smtp, pid=1234, logentry=message-id=XYZ, followed by one
blank line, with no warning. -/
theorem claim_C1 :
    seelineMatch lineHour20 = some capsHour20
    ∧ runGloss defaultCfg [some [lineHour20]] = (outHour20, false) :=
  ⟨rfl, rfl⟩

/-- Claim C2: the where-clause evaluator starts from a true accumulator
and folds the conditions left to right; at an OrMarker a true
accumulator short-circuits the whole remaining clause to a true result,
while a false accumulator is reset to true and evaluation continues; in
particular [Test(a,"1",true), OrMarker, Test(b,"2",true)] against
{a:"1", b:"9"} selects the line. -/
theorem claim_C2 :
    (∀ (acc : Bool) (rest : List Condition) (env : List (Str × Option Str)),
      whereEval acc (Condition.orMarker :: rest) env
        = if acc then true else whereEval true rest env)
    ∧ whereEval true
        [Condition.test "a".data "1".data true, Condition.orMarker,
         Condition.test "b".data "2".data true]
        [("a".data, some "1".data), ("b".data, some "9".data)] = true := by
  refine ⟨?_, rfl⟩
  intro acc rest env
  cases acc <;> simp [whereEval]

/-- Claim C4, code behaviour at the failing input: with verbose mode on,
the first unmatched line makes the scanner emit no further output for
that source and sets the warning flag, because in Python 2 the call
sys.stderr.write('Unrecognised line format: ', lfl) on gloss.py line 252
passes two arguments to file.write and raises TypeError, which the
per-source except handler catches; the matching line after it is never
printed.  Without verbose mode the unmatched line is skipped and the
following line is printed, as the spec describes for both modes. -/
theorem claim_C4 :
    seelineMatch lineGarbage = none
    ∧ runGloss verboseCfg [some [lineGarbage, lineHour20]] = ([], true)
    ∧ runGloss defaultCfg [some [lineGarbage, lineHour20]] = (outHour20, false) :=
  ⟨rfl, rfl, rfl⟩

/-- Claim C6: a Test whose variable is not bound in the parsed line's
mapping evaluates as unmet (the accumulator becomes false) and
evaluation simply continues with the remaining conditions; the
evaluator is a total function, so an unresolved variable never raises
and never aborts the scan. -/
theorem claim_C6 (env : List (Str × Option Str)) (var val : Str) (eq : Bool)
    (rest : List Condition) (acc : Bool)
    (h : dictGet env var = none) :
    whereEval acc (Condition.test var val eq :: rest) env
      = whereEval false rest env := by
  simp [whereEval, h]

/-- Witness for claim C6 at a concrete binding: variable b is unbound,
the Test on it is unmet and the whole clause drops the line. -/
theorem claim_C6_witness :
    dictGet [("a".data, some "1".data)] "b".data = none
    ∧ whereEval true [Condition.test "b".data "2".data true]
        [("a".data, some "1".data)] = false := by
  refine ⟨rfl, ?_⟩
  rw [claim_C6 [("a".data, some "1".data)] "b".data "2".data true [] true (by rfl)]
  rfl

/-- Claim C7: an unreadable source contributes no output but sets the
warning flag, and the outputs of the sources around it are still
printed unchanged; the process completion status is 0 exactly when no
warning occurred in the whole run, and 1 otherwise. -/
theorem claim_C7 :
    (∀ (cfg : Cfg) (pre post : List (Option (List Str))),
      runGloss cfg (pre ++ none :: post)
        = ((runGloss cfg pre).1 ++ (runGloss cfg post).1, true))
    ∧ (∀ (cfg : Cfg) (srcs : List (Option (List Str))),
        exitCode cfg srcs = 0 ↔ (runGloss cfg srcs).2 = false)
    ∧ (∀ (cfg : Cfg) (srcs : List (Option (List Str))),
        exitCode cfg srcs = 0 ∨ exitCode cfg srcs = 1) := by
  refine ⟨?_, ?_, ?_⟩
  · intro cfg pre post
    induction pre with
    | nil => simp [runGloss, runSource]
    | cons src pre ih => simp [runGloss, ih]
  · intro cfg srcs
    unfold exitCode
    cases h : (runGloss cfg srcs).2 <;> simp
  · intro cfg srcs
    unfold exitCode
    cases h : (runGloss cfg srcs).2 <;> simp

/-- Claim C9: on a matched line whose optional pid group did not
participate, the binding dict(zip(ky_logline, groups())) still contains
the key pid, bound to Python's None (the absent marker); a Test
pid!=v is then met for every v (None == v is False, and False != False
is False, leaving the accumulator untouched) and a Test pid=v is unmet;
the variable is bound, so the unresolved-variable rule does not fire. -/
theorem claim_C9 (line : Str) (cp : Caps) (v : Str)
    (hm : seelineMatch line = some cp)
    (hpid : groupVal cp 8 = none) :
    dictGet (cfgVars defaultCfg cp) "pid".data = some none
    ∧ whereEval true [Condition.test "pid".data v false] (cfgVars defaultCfg cp) = true
    ∧ whereEval true [Condition.test "pid".data v true] (cfgVars defaultCfg cp) = false := by
  have hget : dictGet (cfgVars defaultCfg cp) "pid".data = some (groupVal cp 8) := rfl
  have h1 : dictGet (cfgVars defaultCfg cp) "pid".data = some none := by
    rw [hget, hpid]
  refine ⟨h1, ?_, ?_⟩ <;> simp [whereEval, h1, optEq]

/-- Witness for claim C9 on the concrete pid-less line. -/
theorem claim_C9_witness :
    seelineMatch lineNoPid = some capsNoPid
    ∧ groupVal capsNoPid 8 = none
    ∧ dictGet (cfgVars defaultCfg capsNoPid) "pid".data = some none
    ∧ whereEval true [Condition.test "pid".data "7".data false]
        (cfgVars defaultCfg capsNoPid) = true
    ∧ whereEval true [Condition.test "pid".data "7".data true]
        (cfgVars defaultCfg capsNoPid) = false :=
  ⟨rfl, rfl,
   (claim_C9 lineNoPid capsNoPid "7".data rfl rfl).1,
   (claim_C9 lineNoPid capsNoPid "7".data rfl rfl).2.1,
   (claim_C9 lineNoPid capsNoPid "7".data rfl rfl).2.2⟩

/-- Claim C10: a projection list containing a variable that is missing
from the mapping, or bound to the absent marker None, makes the
projection loop raise (KeyError or TypeError on the concatenation with
None); the name=value lines already printed for earlier variables stay
printed, nothing further of the entry is printed, and at the scanner
level the per-source handler turns this into a warning and the rest of
the source is skipped. -/
theorem claim_C10 :
    (∀ (vars : List (Str × Option Str)) (pre : List Str) (v : Str) (post : List Str),
      (∀ u ∈ pre, ∃ s, dictGet vars u = some (some s)) →
      (dictGet vars v = none ∨ dictGet vars v = some none) →
      projectLoop vars (pre ++ v :: post) = ((projectLoop vars pre).1, true))
    ∧ (∀ (cfg : Cfg) (l : Str) (ls : List Str) (cp : Caps),
        reMatch cfg.pattern l = some cp →
        whereEval true cfg.conditions (cfgVars cfg cp) = true →
        (projectLoop (cfgVars cfg cp) cfg.var_names).2 = true →
        runSource cfg (some (l :: ls))
          = ((projectLoop (cfgVars cfg cp) cfg.var_names).1, true)) := by
  constructor
  · intro vars pre v post hpre hv
    induction pre with
    | nil =>
      rcases hv with hv | hv <;> simp [projectLoop, hv]
    | cons u pre ih =>
      obtain ⟨s, hs⟩ := hpre u (by simp)
      have ih2 := ih (fun u hu => hpre u (by simp [hu]))
      simp only [List.cons_append, projectLoop, hs, List.append_eq, ih2]
  · intro cfg l ls cp hm hw hab
    simp only [runSource, processLines, hm, cfgVars] at *
    rw [hw]
    simp [hab]

/-- Witness for claim C10: projecting month,pid,day on the pid-less
line prints month=Oct, then aborts on pid (bound to None), skips day
and the whole rest of the source (the matching lineHour20 is never
printed), and the run ends with the warning flag set. -/
theorem claim_C10_witness :
    runSource cfgSelPid (some [lineNoPid, lineHour20])
      = (["month=Oct".data], true) :=
  claim_C10.2 cfgSelPid lineNoPid [lineHour20] capsNoPid rfl rfl rfl

/-- Claim C5: the count of capture groups in the assembled composite
pattern equals the total count of keys across all fragments — 9 and 9
for the default fragments, in matching positional order — and for every
line that matches, the zip binding yields a value (possibly the absent
marker None) for every key of ky_logline. -/
theorem claim_C5 :
    (defaultFragments.map (fun f => groupCount f.1)).sum
        = (defaultFragments.map (fun f => f.2.length)).sum
    ∧ groupCount re_logline = 9
    ∧ ky_logline.length = 9
    ∧ (∀ (line : Str) (cp : Caps), seelineMatch line = some cp →
        ∀ key ∈ ky_logline, (dictGet (cfgVars defaultCfg cp) key).isSome = true) := by
  refine ⟨rfl, rfl, rfl, ?_⟩
  intro line cp hm key hk
  fin_cases hk <;> rfl

/-- Witness for claim C5 at the concrete matching line lineHour20. -/
theorem claim_C5_witness :
    seelineMatch lineHour20 = some capsHour20
    ∧ "month".data ∈ ky_logline
    ∧ (dictGet (cfgVars defaultCfg capsHour20) "month".data).isSome = true :=
  ⟨rfl, by decide,
   claim_C5.2.2.2 lineHour20 capsHour20 rfl "month".data (by decide)⟩

lemma lits_nil : lits [] = RE.eps := rfl

lemma lits_cons (c : Char) (l : Str) :
    lits (c :: l) = RE.cat (.cls (.chC c)) (lits l) := rfl

lemma matB_lits_iff (l : Str) :
    ∀ (s : Str) (k : Str → Bool),
    matB (lits l) s k = true ↔ ∃ s1, s = l ++ s1 ∧ k s1 = true := by
  induction l with
  | nil =>
    intro s k
    simp [lits_nil, matB]
  | cons c l ih =>
    intro s k
    rw [lits_cons]
    cases s with
    | nil =>
      simp only [matB]
      constructor
      · intro h; cases h
      · rintro ⟨s1, h, _⟩; cases h
    | cons a s =>
      simp only [matB, Bool.and_eq_true, CClass.test, beq_iff_eq]
      constructor
      · rintro ⟨rfl, h⟩
        obtain ⟨s1, h1, h2⟩ := (ih s k).mp h
        exact ⟨s1, by simp [h1], h2⟩
      · rintro ⟨s1, h1, h2⟩
        injection h1 with hb hs
        subst hb
        exact ⟨rfl, (ih s k).mpr ⟨s1, hs, h2⟩⟩

lemma altList_iff :
    ∀ (rs : List RE) (s : Str) (k : Str → Bool),
    matB (altList rs) s k = true ↔ ∃ r ∈ rs, matB r s k = true := by
  intro rs
  induction rs with
  | nil => intro s k; simp [altList, matB]
  | cons r rs ih =>
    intro s k
    cases rs with
    | nil => simp [altList]
    | cons r2 rs2 =>
      simp only [altList, matB, Bool.or_eq_true, ih]
      constructor
      · rintro (h | ⟨r3, h3, h4⟩)
        · exact ⟨r, by simp, h⟩
        · exact ⟨r3, by simp [h3], h4⟩
      · rintro ⟨r3, h3, h4⟩
        rcases List.mem_cons.mp h3 with h3 | h3
        · subst h3; exact Or.inl h4
        · exact Or.inr ⟨r3, h3, h4⟩

lemma starB_iff (c : CClass) (k : Str → Bool) :
    ∀ s, starB c k s = true
      ↔ ∃ u v, s = u ++ v ∧ (∀ x ∈ u, c.test x = true) ∧ k v = true := by
  intro s
  induction s with
  | nil =>
    simp only [starB]
    constructor
    · intro h; exact ⟨[], [], rfl, by simp, h⟩
    · rintro ⟨u, v, huv, _, hk⟩
      rcases List.append_eq_nil.mp huv.symm with ⟨rfl, rfl⟩
      exact hk
  | cons a s ih =>
    simp only [starB]
    by_cases h : c.test a
    · simp only [h, if_true, Bool.or_eq_true, ih]
      constructor
      · rintro (⟨u, v, huv, hu, hk⟩ | hk)
        · exact ⟨a :: u, v, by simp [huv], by simpa [h] using hu, hk⟩
        · exact ⟨[], a :: s, rfl, by simp, hk⟩
      · rintro ⟨u, v, huv, hu, hk⟩
        cases u with
        | nil => exact Or.inr (by simpa using huv ▸ hk)
        | cons b u =>
          injection huv with hb hs
          subst hb
          exact Or.inl ⟨u, v, hs, fun x hx => hu x (by simp [hx]), hk⟩
    · simp only [h, if_false]
      constructor
      · intro hk; exact ⟨[], a :: s, rfl, by simp, hk⟩
      · rintro ⟨u, v, huv, hu, hk⟩
        cases u with
        | nil => simpa using huv ▸ hk
        | cons b u =>
          injection huv with hb hs
          subst hb
          exact absurd (hu a (by simp)) (by simp [h])

lemma matB_plus_iff (c : CClass) (k : Str → Bool) (s : Str) :
    matB (.plus c) s k = true
      ↔ ∃ u v, s = u ++ v ∧ u ≠ [] ∧ (∀ x ∈ u, c.test x = true) ∧ k v = true := by
  cases s with
  | nil =>
    simp only [matB]
    constructor
    · intro h; cases h
    · rintro ⟨u, v, huv, hu, _, _⟩
      rcases List.append_eq_nil.mp huv.symm with ⟨rfl, rfl⟩
      exact absurd rfl hu
  | cons a s =>
    simp only [matB, Bool.and_eq_true]
    constructor
    · rintro ⟨ha, hstar⟩
      obtain ⟨u, v, huv, hu, hk⟩ := (starB_iff c k s).mp hstar
      exact ⟨a :: u, v, by simp [huv], by simp,
        by intro x hx; rcases List.mem_cons.mp hx with rfl | hx
           · exact ha
           · exact hu x hx, hk⟩
    · rintro ⟨u, v, huv, hune, hu, hk⟩
      cases u with
      | nil => exact absurd rfl hune
      | cons b u =>
        injection huv with hb hs
        subst hb
        refine ⟨hu a (by simp), ?_⟩
        exact (starB_iff c k s).mpr ⟨u, v, hs, fun x hx => hu x (by simp [hx]), hk⟩

lemma re_rest_none : re_rest none = .grp 9 (.star .dot) := rfl

lemma matB_eps (s : Str) (k : Str → Bool) : matB .eps s k = k s := rfl

lemma matB_cls_cons (c : CClass) (a : Char) (s : Str) (k : Str → Bool) :
    matB (.cls c) (a :: s) k = (c.test a && k s) := rfl

lemma matB_cat (r1 r2 : RE) (s : Str) (k : Str → Bool) :
    matB (.cat r1 r2) s k = matB r1 s (fun s1 => matB r2 s1 k) := rfl

lemma matB_alt (m1 m2 : RE) (s : Str) (k : Str → Bool) :
    matB (.alt m1 m2) s k = (matB m1 s k || matB m2 s k) := rfl

lemma matB_opt (r : RE) (s : Str) (k : Str → Bool) :
    matB (.opt r) s k = (matB r s k || k s) := rfl

lemma matB_star (c : CClass) (s : Str) (k : Str → Bool) :
    matB (.star c) s k = starB c k s := rfl

lemma matB_grp (n : Nat) (r : RE) (s : Str) (k : Str → Bool) :
    matB (.grp n r) s k = matB r s k := rfl

lemma or_true_left {a b : Bool} (h : a = true) : (a || b) = true := by
  simp [h]

lemma or_true_right {a b : Bool} (h : b = true) : (a || b) = true := by
  simp [h]

lemma matB_chr_self (c : Char) (s : Str) (k : Str → Bool) (hk : k s = true) :
    matB (chr c) (c :: s) k = true := by
  rw [chr, matB_cls_cons]
  simp [CClass.test, hk]

lemma step_month (k : Str → Bool) (month rest : Str)
    (hm : month ∈ monthStrs) (hk : k rest = true) :
    matB re_month (month ++ rest) k = true := by
  rw [re_month, matB_grp]
  exact (altList_iff _ _ _).mpr
    ⟨lits month, List.mem_map_of_mem _ hm,
     (matB_lits_iff _ _ _).mpr ⟨rest, rfl, hk⟩⟩

lemma step_day (k : Str → Bool) (day rest : Str)
    (hd : day ∈ dayStrs) (hk : k rest = true) :
    matB re_day (day ++ rest) k = true := by
  rw [re_day, matB_grp]
  exact (altList_iff _ _ _).mpr
    ⟨lits day, List.mem_map_of_mem _ hd,
     (matB_lits_iff _ _ _).mpr ⟨rest, rfl, hk⟩⟩

lemma step_time (k : Str → Bool) (h1 m1 m2 s1 s2 : Char) (rest : Str)
    (hh1 : CClass.test .d03 h1 = true)
    (hm1 : CClass.test .d05 m1 = true) (hm2 : CClass.test .d09 m2 = true)
    (hs1 : CClass.test .d05 s1 = true) (hs2 : CClass.test .d09 s2 = true)
    (hk : k rest = true) :
    matB re_time ('2' :: h1 :: ':' :: m1 :: m2 :: ':' :: s1 :: s2 :: rest) k
      = true := by
  rw [re_time, matB_grp, matB_alt]
  apply or_true_right
  have t2 : CClass.test (.chC '2') '2' = true := rfl
  have tc : CClass.test (.chC ':') ':' = true := rfl
  simp only [catList, List.foldr, chr, matB_cat, matB_cls_cons, matB_eps,
    t2, tc, hh1, hm1, hm2, hs1, hs2, Bool.true_and]
  exact hk

lemma step_host (k : Str → Bool) (host rest : Str)
    (hne : host ≠ []) (hsp : ∀ c ∈ host, c ≠ ' ') (hk : k rest = true) :
    matB re_host (host ++ rest) k = true := by
  rw [re_host, matB_grp]
  refine (matB_plus_iff _ _ _).mpr ⟨host, rest, rfl, hne, ?_, hk⟩
  intro x hx
  simp only [CClass.test, bne_iff_ne, ne_eq, decide_eq_true_eq]
  exact hsp x hx

lemma step_proc (k : Str → Bool) (p rest : Str)
    (hne : p ≠ []) (hcol : ∀ c ∈ p, c ≠ ':') (hrb : p.getLast hne ≠ ']')
    (hk : k rest = true) :
    matB re_proc (p ++ rest) k = true := by
  rw [re_proc, matB_grp, matB_cat, matB_star]
  refine (starB_iff _ _ _).mpr ⟨p.dropLast, p.getLast hne :: rest, ?_, ?_, ?_⟩
  · conv_lhs => rw [← List.dropLast_append_getLast hne]
    simp [List.append_assoc]
  · intro x hx
    have hxp : x ∈ p := List.dropLast_subset p hx
    simp only [CClass.test, bne_iff_ne, ne_eq, decide_eq_true_eq]
    exact hcol x hxp
  · beta_reduce
    have hlast : p.getLast hne ∈ p := List.getLast_mem hne
    rw [matB_cls_cons]
    simp only [CClass.test, Bool.and_eq_true, bne_iff_ne, ne_eq,
      decide_eq_true_eq]
    exact ⟨⟨hcol _ hlast, hrb⟩, hk⟩

lemma step_pid (k : Str → Bool) (pid : Option Str) (rest : Str)
    (hpid : ∀ ds, pid = some ds → ds ≠ [] ∧ ∀ c ∈ ds, CClass.test .d09 c = true)
    (hk : k rest = true) :
    matB re_pid (pidPart pid rest) k = true := by
  cases pid with
  | none =>
    rw [re_pid, matB_opt]
    apply or_true_right
    exact hk
  | some ds =>
    obtain ⟨hne, hds⟩ := hpid ds rfl
    rw [re_pid, matB_opt]
    apply or_true_left
    show matB _ ('[' :: (ds ++ (']' :: rest))) k = true
    simp only [catList, List.foldr, matB_cat]
    refine matB_chr_self _ _ _ ?_
    beta_reduce
    rw [matB_grp]
    refine (matB_plus_iff _ _ _).mpr ⟨ds, ']' :: rest, rfl, hne, hds, ?_⟩
    beta_reduce
    refine matB_chr_self _ _ _ ?_
    beta_reduce
    rw [matB_eps]
    exact hk

lemma step_tstamp (k : Str → Bool) (month day : Str)
    (h1 m1 m2 s1 s2 : Char) (rest : Str)
    (hmonth : month ∈ monthStrs) (hday : day ∈ dayStrs)
    (hh1 : CClass.test .d03 h1 = true)
    (hm1 : CClass.test .d05 m1 = true) (hm2 : CClass.test .d09 m2 = true)
    (hs1 : CClass.test .d05 s1 = true) (hs2 : CClass.test .d09 s2 = true)
    (hk : k rest = true) :
    matB re_tstamp
      (month ++ (' ' :: (day ++ (' ' :: '2' :: h1 :: ':' :: m1 :: m2 :: ':' ::
        s1 :: s2 :: rest)))) k = true := by
  rw [re_tstamp, matB_grp]
  simp only [catList, List.foldr, matB_cat, matB_grp]
  refine step_month _ _ _ hmonth ?_
  beta_reduce
  refine (matB_plus_iff _ _ _).mpr
    ⟨[' '], day ++ (' ' :: '2' :: h1 :: ':' :: m1 :: m2 :: ':' ::
      s1 :: s2 :: rest), rfl, by simp, ?_, ?_⟩
  · intro x hx
    simp only [List.mem_singleton] at hx
    subst hx
    rfl
  · beta_reduce
    refine step_day _ _ _ hday ?_
    beta_reduce
    rw [matB_eps]
    refine matB_chr_self _ _ _ ?_
    beta_reduce
    refine step_time _ _ _ _ _ _ _ hh1 hm1 hm2 hs1 hs2 ?_
    beta_reduce
    rw [matB_eps]
    exact hk

/-- Claim C3 as amended: every line of the form
MONTH DAY HH:MM:SS HOST PROC[PID]: MESSAGE (trailing newline) is matched
by the assembled composite pattern, provided the hour is 20-23 — the
time fragment ([01][0-9]|2[0-3]:[0-5][0-9]:[0-5][0-9]) groups its
alternation so that minutes and seconds only follow an hour 20-23 — and
provided PROC, besides being colon-free and nonempty, does not end in a
closing bracket (the fragment is ([^:]*[^:\]])).  MONTH is one of the
twelve month literals, DAY one of the alternatives 1..31, HOST a
nonempty space-free token, PID an optional nonempty bracketed digit
string, and MESSAGE any newline-free string. -/
theorem claim_C3 (month day host procStr msg : Str) (pid : Option Str)
    (h1 m1 m2 s1 s2 : Char)
    (hmonth : month ∈ monthStrs) (hday : day ∈ dayStrs)
    (hh1 : CClass.test .d03 h1 = true)
    (hm1 : CClass.test .d05 m1 = true) (hm2 : CClass.test .d09 m2 = true)
    (hs1 : CClass.test .d05 s1 = true) (hs2 : CClass.test .d09 s2 = true)
    (hhostne : host ≠ []) (hhost : ∀ c ∈ host, c ≠ ' ')
    (hprocne : procStr ≠ []) (hproc : ∀ c ∈ procStr, c ≠ ':')
    (hprocrb : procStr.getLast hprocne ≠ ']')
    (hpid : ∀ ds, pid = some ds → ds ≠ [] ∧ ∀ c ∈ ds, CClass.test .d09 c = true)
    (hmsg : ∀ c ∈ msg, c ≠ '\n') :
    reAccepts re_logline (mkLine month day h1 m1 m2 s1 s2 host procStr pid msg)
      = true := by
  rw [reAccepts_eq_matB]
  rw [re_logline, re_logline_of, mkLine]
  simp only [catList, List.foldr, matB_cat]
  refine step_tstamp _ _ _ _ _ _ _ _ _ hmonth hday hh1 hm1 hm2 hs1 hs2 ?_
  beta_reduce
  refine matB_chr_self _ _ _ ?_
  beta_reduce
  refine step_host _ _ _ hhostne hhost ?_
  beta_reduce
  refine matB_chr_self _ _ _ ?_
  beta_reduce
  refine step_proc _ _ _ hprocne hproc hprocrb ?_
  beta_reduce
  refine step_pid _ _ _ hpid ?_
  beta_reduce
  refine matB_chr_self _ _ _ ?_
  beta_reduce
  refine (matB_plus_iff _ _ _).mpr
    ⟨[' '], msg ++ ['\n'], rfl, by simp, ?_, ?_⟩
  · intro x hx
    simp only [List.mem_singleton] at hx
    subst hx
    rfl
  · beta_reduce
    rw [re_rest_none, matB_grp, matB_star]
    refine (starB_iff _ _ _).mpr ⟨msg, ['\n'], rfl, ?_, ?_⟩
    · intro x hx
      simp only [CClass.test, bne_iff_ne, ne_eq, decide_eq_true_eq]
      exact hmsg x hx
    · beta_reduce
      refine matB_chr_self _ _ _ ?_
      beta_reduce
      rw [matB_eps]

/-- Counterexample for claim C3: two lines of the claimed grammar that
the composite pattern rejects — a line with hour 00 (any hour below 20
fails, since the time alternation only continues into :MM:SS after
2[0-3]) and a line whose colon-free PROC token ends in a closing
bracket, which ([^:]*[^:\]]) can never match in front of the pid. -/
theorem claim_C3_cex :
    seelineMatch lineHour00 = none ∧ seelineMatch lineProcRb = none :=
  ⟨rfl, rfl⟩

/-- Witness for claim C3 on one concrete well-formed line with hour 21
and a bracketed pid. -/
theorem claim_C3_witness :
    "Oct".data ∈ monthStrs
    ∧ "3".data ∈ dayStrs
    ∧ reAccepts re_logline
        (mkLine "Oct".data "3".data '1' '4' '2' '0' '7'
          "h1".data "pr/c".data (some "42".data) "hello world".data) = true :=
  ⟨by decide, by decide,
   claim_C3 "Oct".data "3".data "h1".data "pr/c".data "hello world".data
     (some "42".data) '1' '4' '2' '0' '7'
     (by decide) (by decide) rfl rfl rfl rfl rfl
     (by decide) (by decide) (by decide) (by decide) (by decide)
     (by intro ds h; cases h; decide) (by decide)⟩

set_option maxRecDepth 8192 in
lemma printR_pattern_eq_source : String.mk (printR re_logline) = srcPattern := by
  decide

lemma escChar_plain (c : Char) (h : c ∉ regexSpecials) : escChar c = [c] := by
  simp [escChar, h]

lemma printR_lits (s : Str) (h : ∀ c ∈ s, c ∉ regexSpecials) :
    printR (lits s) = s := by
  induction s with
  | nil => rfl
  | cons c l ih =>
    rw [lits_cons]
    show printC (.chC c) ++ printR (lits l) = c :: l
    rw [show printC (.chC c) = escChar c from rfl,
        escChar_plain c (h c (by simp)), ih (fun x hx => h x (by simp [hx]))]
    rfl

lemma printR_restPiece (sub : Str) (h : ∀ c ∈ sub, c ∉ regexSpecials) :
    printR (restPiece sub) = ".*".data ++ (sub ++ ".*".data) := by
  show printR (.star .dot) ++ (printR (lits sub) ++ (printR (.star .dot) ++ printR .eps)) = _
  rw [printR_lits sub h]
  rfl

lemma printR_altList_pieces :
    ∀ (subs : List Str), subs ≠ [] →
    (∀ sub ∈ subs, ∀ c ∈ sub, c ∉ regexSpecials) →
    printR (altList (subs.map restPiece))
      = ".*".data ++ (joinSep ".*|.*".data subs ++ ".*".data) := by
  intro subs
  induction subs with
  | nil => intro h; exact absurd rfl h
  | cons s rest ih =>
    intro _ hmeta
    cases rest with
    | nil =>
      show printR (restPiece s) = _
      rw [printR_restPiece s (hmeta s (by simp))]
      rfl
    | cons s2 rest2 =>
      show printR (restPiece s) ++ ('|' :: printR (altList ((s2 :: rest2).map restPiece))) = _
      rw [printR_restPiece s (hmeta s (by simp)),
          ih (by simp) (fun sub hsub => hmeta sub (by simp [hsub]))]
      show (".*".data ++ (s ++ ".*".data)) ++ ('|' :: (".*".data ++ _)) = _
      simp [joinSep, List.append_assoc]

lemma restPiece_nl_iff (sub msg : Str)
    (hsub : ∀ c ∈ sub, c ≠ '\n') (hmsg : ∀ c ∈ msg, c ≠ '\n') :
    matB (restPiece sub) (msg ++ ['\n'])
      (fun s1 => matB (chr '\n') s1 (fun _ => true)) = true
      ↔ occursIn sub msg := by
  rw [show restPiece sub
      = .cat (.star .dot) (.cat (lits sub) (.cat (.star .dot) .eps)) from rfl]
  rw [matB_cat, matB_star]
  constructor
  · intro h
    obtain ⟨u, v, huv, hu, hk1⟩ := (starB_iff _ _ _).mp h
    have hk2 : matB (.cat (lits sub) (.cat (.star .dot) .eps)) v
        (fun s1 => matB (chr '\n') s1 (fun _ => true)) = true := hk1
    rw [matB_cat] at hk2
    obtain ⟨v1, hv1, _⟩ := (matB_lits_iff _ _ _).mp hk2
    subst hv1
    rcases List.eq_nil_or_concat v1 with rfl | ⟨L, b, rfl⟩
    · rcases List.eq_nil_or_concat sub with rfl | ⟨S, b, rfl⟩
      · exact ⟨msg, [], by simp⟩
      · exfalso
        rw [List.concat_eq_append] at huv hsub
        have heq : (u ++ S) ++ [b] = msg ++ ['\n'] := by
          simpa [List.append_assoc] using huv.symm
        obtain ⟨_, h2⟩ := List.append_inj' heq (by simp)
        have hb : b = '\n' := by injection h2
        exact hsub b (by simp) hb
    · rw [List.concat_eq_append] at huv
      have heq : (u ++ (sub ++ L)) ++ [b] = msg ++ ['\n'] := by
        simpa [List.append_assoc] using huv.symm
      obtain ⟨h1, _⟩ := List.append_inj' heq (by simp)
      exact ⟨u, L, h1.symm⟩
  · rintro ⟨u, v, rfl⟩
    refine (starB_iff _ _ _).mpr
      ⟨u, sub ++ (v ++ ['\n']), by simp [List.append_assoc], ?_, ?_⟩
    · intro x hx
      simp only [CClass.test, bne_iff_ne, ne_eq, decide_eq_true_eq]
      exact hmsg x (by simp [hx])
    · beta_reduce
      rw [matB_cat]
      refine (matB_lits_iff _ _ _).mpr ⟨v ++ ['\n'], rfl, ?_⟩
      beta_reduce
      rw [matB_cat, matB_star]
      refine (starB_iff _ _ _).mpr ⟨v, ['\n'], rfl, ?_, ?_⟩
      · intro x hx
        simp only [CClass.test, bne_iff_ne, ne_eq, decide_eq_true_eq]
        exact hmsg x (by simp [hx])
      · beta_reduce
        rw [matB_eps]
        exact matB_chr_self _ _ _ rfl

/-- Claim C8: with several required free-text substrings the free-text
fragment is the single-group alternation (.*sub1.*|.*sub2.*|...), and a
line is matched exactly when ANY one of the substrings occurs in its
message part — OR semantics, not AND.  The substrings are assumed free
of regex metacharacters (gloss.py performs no escaping, so only then is
the literal reading of '.*sub.*' the compiled pattern) and free of
newlines, and the message is newline-free as in any single log line. -/
theorem claim_C8 (subs : List Str) (msg : Str)
    (hne : subs ≠ [])
    (hmeta : ∀ sub ∈ subs, ∀ c ∈ sub, c ∉ regexSpecials)
    (hnl : ∀ sub ∈ subs, ∀ c ∈ sub, c ≠ '\n')
    (hmsg : ∀ c ∈ msg, c ≠ '\n') :
    printR (re_rest (some subs))
      = "(.*".data ++ (joinSep ".*|.*".data subs ++ ".*)".data)
    ∧ (reAccepts (.cat (re_rest (some subs)) (chr '\n')) (msg ++ ['\n']) = true
        ↔ ∃ sub ∈ subs, occursIn sub msg) := by
  constructor
  · show '(' :: (printR (altList (subs.map restPiece)) ++ [')']) = _
    rw [printR_altList_pieces subs hne hmeta]
    simp [List.append_assoc]
  · rw [reAccepts_eq_matB, matB_cat]
    rw [show re_rest (some subs) = .grp 9 (altList (subs.map restPiece)) from rfl,
        matB_grp]
    rw [altList_iff]
    constructor
    · rintro ⟨r, hr, hmat⟩
      obtain ⟨sub, hsubm, rfl⟩ := List.mem_map.mp hr
      exact ⟨sub, hsubm, (restPiece_nl_iff sub msg (hnl sub hsubm) hmsg).mp hmat⟩
    · rintro ⟨sub, hsubm, hocc⟩
      exact ⟨restPiece sub, List.mem_map_of_mem _ hsubm,
        (restPiece_nl_iff sub msg (hnl sub hsubm) hmsg).mpr hocc⟩

/-- Witness for claim C8: with required substrings foo and bar, the
message part xx bar yy is matched because bar occurs in it. -/
theorem claim_C8_witness :
    reAccepts (.cat (re_rest (some ["foo".data, "bar".data])) (chr '\n'))
      ("xx bar yy".data ++ ['\n']) = true :=
  (claim_C8 ["foo".data, "bar".data] "xx bar yy".data (by decide) (by decide)
    (by decide) (by decide)).2.mpr
    ⟨"bar".data, by decide, "xx ".data, " yy".data, rfl⟩
